import Mathlib

/-!
Shallow embedding of `src/stride_locations.py` (class `GetStrideDataDurationAlgo`,
method `processAlgorithm`) from the repository `AI_created_QGIS_plugin_demo`.

Conventions of the embedding:
* Python/JSON scalar values are the inductive `Value`; Python floats are
  modelled by rationals (exact arithmetic).
* Python dicts are association lists (`Dict`) with Python semantics:
  lookup finds the first matching key, assignment replaces in place or
  appends, preserving insertion order.
* Host-provided functions are parameters of the embedding: `pf` models the
  string acceptance of the Python builtin `float`, `isoParse` models the
  Qt ISO-8601 date-time parser behind `QDateTime.fromString(_, Qt.ISODate)`
  (`none` = Qt returns an invalid `QDateTime`), `fmt` models
  `QDateTime.toString(iso_format)`, and `tr` models
  `QgsCoordinateTransform.transform` (EPSG:4326 to EPSG:2039).
* The outcome of `eval(params_str)` (line 116) is an explicit input
  (`EvalOutcome`), since the Python `eval` of arbitrary text is external.
* Exceptions are modelled with `Except` / explicit error values:
  `QgsProcessingException` raises become `ProcError`, uncaught Python
  exceptions become `PyErr`.
-/

set_option autoImplicit false

namespace StrideLocations

/-- Python/JSON values as they occur in the decoded response and in the
parameters dictionary. `null` is Python `None`. -/
inductive Value where
  | null
  | bool (b : Bool)
  | num (q : ℚ)
  | str (s : String)
  | arr (elts : List Value)
  | obj (kvs : List (String × Value))

/-- A Python dict with string keys, as an insertion-ordered association list. -/
abbrev Dict := List (String × Value)

/-- First-match lookup: Python `d[k]` / the successful case of `d.get(k)`. -/
def dictGet (d : Dict) (k : String) : Option Value :=
  match d.find? (fun kv => kv.1 == k) with
  | some kv => some kv.2
  | none => none

/-- Python `d[k] = v`: replace the value in place when the key exists,
otherwise append the new binding. -/
def dictSet (d : Dict) (k : String) (v : Value) : Dict :=
  match d with
  | [] => [(k, v)]
  | kv :: rest => if kv.1 = k then (k, v) :: rest else kv :: dictSet rest k v

/-- Python `item.get(k) is not None` collapses an absent key and a `None`
value: both give `none` here.  Models the guards on lines 219 and 232. -/
def pyGet (item : Dict) (k : String) : Option Value :=
  match dictGet item k with
  | some .null => none
  | some v => some v
  | none => none

/-- Model of the Python builtin `float` applied to a string: an optional
sign, then decimal digits with an optional fractional part (the forms the
upstream API can produce; exotic accepted forms such as exponents or
`inf` are outside the model).  `none` models `ValueError`. -/
def parseDigits : List Char → Option Nat
  | [] => none
  | cs =>
    if cs.all Char.isDigit then
      some (cs.foldl (fun n c => n * 10 + (c.toNat - 48)) 0)
    else none

def floatOfString (s : String) : Option ℚ :=
  let core : List Char → Option ℚ := fun cs =>
    match cs.splitOn '.' with
    | [ip] => (parseDigits ip).map (fun n => mkRat n 1)
    | [ip, fp] =>
      if ip.isEmpty && fp.isEmpty then none
      else
        match (if ip.isEmpty then some 0 else parseDigits ip),
              (if fp.isEmpty then some 0 else parseDigits fp) with
        | some n, some f => some (mkRat (n * 10 ^ fp.length + f) (10 ^ fp.length))
        | _, _ => none
    | _ => none
  match s.toList with
  | '-' :: t => (core t).map (fun q => -q)
  | '+' :: t => core t
  | t => core t

/-- Python `float(v)` on a decoded JSON value.  `none` models the
`ValueError` / `TypeError` that the `try` on lines 220-225 catches. -/
def pyFloat (pf : String → Option ℚ) : Value → Option ℚ
  | .num q => some q
  | .bool b => some (if b then 1 else 0)
  | .str s => pf s
  | _ => none

/-- Uncaught Python exceptions that can escape `processAlgorithm`. -/
inductive PyErr where
  | typeErr   -- `QDateTime.fromString` applied to a non-string value (line 235)
  | attrErr   -- `.get` on a response item that is not a dict (lines 219, 230)
  | evalErr   -- an exception from `eval` not caught by line 118
deriving DecidableEq

/-- The `QgsProcessingException` raises of `processAlgorithm`, by site. -/
inductive ProcError where
  | invalidParameterFormat          -- line 119: "Invalid format for parameters."
  | networkError                    -- line 159: transport failure
  | httpStatusError (code : Nat)    -- line 163: HTTP status not 200
  | responseDecode                  -- line 170: body not valid JSON
  | invalidOutput                   -- line 208: sink could not be created
deriving DecidableEq

/-- A failure of the whole operation: either a raised
`QgsProcessingException` or an uncaught Python exception. -/
inductive AlgFailure where
  | proc (e : ProcError)
  | py (e : PyErr)
deriving DecidableEq

/-- Outcome of the Python `eval(params_str)` call on line 116: a value, or
a raised exception classified by what the `except` clause on line 118
distinguishes. -/
inductive EvalOutcome where
  | ok (v : Value)
  | synError    -- eval raised SyntaxError (malformed text)
  | typeError   -- eval itself raised TypeError
  | otherExc    -- any other exception (e.g. NameError): not caught

/-- Lines 113-119: parse the extra-parameters text.  Empty text keeps the
empty dict; a `SyntaxError` or `TypeError` (including the explicit
`raise TypeError` when the value is not a dict) becomes
`invalidParameterFormat`; any other exception escapes uncaught. -/
def parseParams (params_str : String) (ev : EvalOutcome) : Except AlgFailure Dict :=
  if params_str = "" then .ok []
  else
    match ev with
    | .ok (.obj kvs) => .ok kvs
    | .ok _ => .error (.proc .invalidParameterFormat)
    | .synError => .error (.proc .invalidParameterFormat)
    | .typeError => .error (.proc .invalidParameterFormat)
    | .otherExc => .error (.py .evalErr)

/-- An axis-aligned extent, already reprojected to WGS84: the value of
`extent_wgs84 = transform.transform(extent)` on line 124 (the coordinate
transform itself is host-provided). -/
structure Extent4 where
  xMin : ℚ
  xMax : ℚ
  yMin : ℚ
  yMax : ℚ

/-- Lines 121-128: when the extent is not null, write the four bounding
box keys into the parameters dict (in source order). -/
def setExtentParams (params : Dict) : Option Extent4 → Dict
  | none => params
  | some e =>
    let p1 := dictSet params "lon__greater_or_equal" (.num e.xMin)
    let p2 := dictSet p1 "lon__lower_or_equal" (.num e.xMax)
    let p3 := dictSet p2 "lat__greater_or_equal" (.num e.yMin)
    dictSet p3 "lat__lower_or_equal" (.num e.yMax)

/-- Model of `QDateTime.addSecs`: instants are milliseconds since the epoch. -/
def addSecs (t : Int) (s : Int) : Int := t + s * 1000

/-- Informational notices (`feedback.pushInfo`), tagged by call site. -/
inductive Info where
  | filteringFrom (s : String)   -- line 133
  | calculatedEnd (s : String)   -- line 138
  | requesting                   -- line 144
  | emptyResponse                -- line 177
  | processingCount (n : Nat)    -- line 213
deriving DecidableEq

/-- Lines 130-138: when the start time is valid, set
`recorded_at_time_from`, and when additionally `duration_minutes > 0`,
set `recorded_at_time_to` from `start_time.addSecs(duration_minutes * 60)`,
both through the same formatter `fmt` (the `iso_format` string). -/
def setTimeParams (fmt : Int → String) (params : Dict) (start_time : Option Int)
    (duration_minutes : Int) : Dict × List Info :=
  match start_time with
  | none => (params, [])
  | some t =>
    let p1 := dictSet params "recorded_at_time_from" (.str (fmt t))
    if duration_minutes > 0 then
      let endStr := fmt (addSecs t (duration_minutes * 60))
      (dictSet p1 "recorded_at_time_to" (.str endStr),
        [.filteringFrom (fmt t), .calculatedEnd endStr])
    else (p1, [.filteringFrom (fmt t)])

/-- The state of the finished network reply (lines 147-167). -/
structure NetReply where
  transportError : Bool   -- `reply.error()` is nonzero
  statusCode : Nat        -- the HTTP status attribute
  body : Option Value     -- decoded JSON; `none` models a JSONDecodeError

/-- Lines 156-173: classify the reply.  Transport errors, non-200 status
and undecodable bodies each raise; otherwise the decoded JSON is
returned. -/
def fetchData (reply : NetReply) : Except AlgFailure Value :=
  if reply.transportError then .error (.proc .networkError)
  else if reply.statusCode ≠ 200 then .error (.proc (.httpStatusError reply.statusCode))
  else
    match reply.body with
    | none => .error (.proc .responseDecode)
    | some v => .ok v

/-- Field types used by the schema (`QVariant` type tags, lines 181-188). -/
inductive FieldType where
  | longlong
  | dateTime
  | double
  | int
  | string
deriving DecidableEq

/-- The fixed 18-entry output schema, lines 181-188 (`field_definitions`). -/
def field_definitions : List (String × FieldType) :=
  [("id", .longlong), ("snapshot_id", .longlong), ("ride_stop_id", .longlong),
   ("recorded_at", .dateTime), ("lon", .double), ("lat", .double),
   ("bearing", .int), ("velocity", .int), ("dist_from_start", .int),
   ("dist_from_stop", .double), ("snapshot_str", .string), ("route_id", .int),
   ("line_ref", .int), ("operator_ref", .int), ("ride_id", .longlong),
   ("journey_ref", .string), ("scheduled_start", .dateTime), ("vehicle_ref", .string)]

/-- Upstream-to-output key renaming, lines 192-198 (`key_map`). -/
def key_map : List (String × String) :=
  [("siri_snapshot_id", "snapshot_id"), ("siri_ride_stop_id", "ride_stop_id"),
   ("recorded_at_time", "recorded_at"),
   ("distance_from_journey_start", "dist_from_start"),
   ("distance_from_siri_ride_stop_meters", "dist_from_stop"),
   ("siri_snapshot__snapshot_id", "snapshot_str"), ("siri_route__id", "route_id"),
   ("siri_route__line_ref", "line_ref"), ("siri_route__operator_ref", "operator_ref"),
   ("siri_ride__id", "ride_id"), ("siri_ride__journey_ref", "journey_ref"),
   ("siri_ride__scheduled_start_time", "scheduled_start"),
   ("siri_ride__vehicle_ref", "vehicle_ref")]

/-- Line 229: the upstream lookup key for an output field name is the
first `key_map` entry whose target is the field name, else the field name
itself. -/
def originalKey (fieldName : String) : String :=
  match key_map.find? (fun kv => kv.2 == fieldName) with
  | some kv => kv.1
  | none => fieldName

/-- One output attribute slot.  `nullVariant` is the typed null
`QVariant()` of line 233, `dateTime` the `QDateTime` built on line 235
(`none` = invalid), `raw` the pass-through of line 238. -/
inductive Attr where
  | nullVariant
  | dateTime (d : Option Nat)
  | raw (v : Value)

/-- Lines 229-238, one field: look the value up under the renamed key;
`None` gives the typed null; a datetime-typed field parses a string value
with the ISO parser — `QDateTime.fromString` on a non-string argument
raises `TypeError` (uncaught in the source). -/
def mapAttr (isoParse : String → Option Nat) (item : Dict)
    (fd : String × FieldType) : Except PyErr Attr :=
  match pyGet item (originalKey fd.1) with
  | none => .ok .nullVariant
  | some v =>
    match fd.2 with
    | .dateTime =>
      match v with
      | .str s => .ok (.dateTime (isoParse s))
      | _ => .error .typeErr
    | _ => .ok (.raw v)

/-- Lines 227-238: the `attributes` list is built field by field, in
schema order, stopping at the first exception. -/
def mapAttrList (isoParse : String → Option Nat) (item : Dict) :
    List (String × FieldType) → Except PyErr (List Attr)
  | [] => .ok []
  | fd :: rest =>
    match mapAttr isoParse item fd with
    | .error e => .error e
    | .ok a =>
      match mapAttrList isoParse item rest with
      | .error e => .error e
      | .ok tl => .ok (a :: tl)

def mapAttributes (isoParse : String → Option Nat) (item : Dict) :
    Except PyErr (List Attr) :=
  mapAttrList isoParse item field_definitions

/-- A point, after the coordinate transform (EPSG:2039 plane). -/
abbrev Point := ℚ × ℚ

/-- Outcome of the geometry block, lines 219-225: either the record goes
on (with or without a geometry), or the `except` clause hits `continue`
and the record is dropped. -/
inductive GeomOutcome where
  | withGeom (g : Option Point)
  | skipRecord

/-- Lines 219-225: when both coordinates are present and non-null, build
the transformed point; a `float` failure on either is caught and skips
the whole record; otherwise the record proceeds without geometry. -/
def geomStep (pf : String → Option ℚ) (tr : Point → Point) (item : Dict) :
    GeomOutcome :=
  match pyGet item "lon", pyGet item "lat" with
  | some lonv, some latv =>
    match pyFloat pf lonv, pyFloat pf latv with
    | some x, some y => .withGeom (some (tr (x, y)))
    | _, _ => .skipRecord
  | _, _ => .withGeom none

/-- Line 230 is only reachable when the response item is a dict;
otherwise `.get` raises `AttributeError` (uncaught). -/
def getDict : Value → Except PyErr Dict
  | .obj kvs => .ok kvs
  | _ => .error .attrErr

/-- One feature as handed to `sink.addFeature` (line 241). -/
structure Feature where
  geom : Option Point
  attrs : List Attr

/-- Line 242: `int((i + 1) / total * 100)`, in exact arithmetic
(the floor of the percentage of records processed). -/
def progressAt (i total : Nat) : Nat := ((i + 1) * 100) / total

/-- Result of the emission loop: the features added to the sink and the
progress values reported, in order, plus the uncaught exception that
ended the loop early, if any. -/
structure LoopOut where
  features : List Feature
  reports : List Nat
  err : Option PyErr
deriving Inhabited

/-- Lines 215-242, the per-record loop.  `canc i` is the value of
`feedback.isCanceled()` observed at iteration `i`; `total` is `len(data)`.
Cancellation breaks; a coordinate-parse failure skips the record
(`continue`), bypassing attribute mapping, the sink write and the
progress report; otherwise the feature is written and progress reported,
and an exception during mapping ends the whole run. -/
def runLoop (pf : String → Option ℚ) (isoParse : String → Option Nat)
    (tr : Point → Point) (canc : Nat → Bool) (total : Nat) :
    Nat → List Value → LoopOut
  | _, [] => ⟨[], [], none⟩
  | i, v :: rest =>
    if canc i then ⟨[], [], none⟩
    else
      match getDict v with
      | .error e => ⟨[], [], some e⟩
      | .ok item =>
        match geomStep pf tr item with
        | .skipRecord => runLoop pf isoParse tr canc total (i + 1) rest
        | .withGeom g =>
          match mapAttributes isoParse item with
          | .error e => ⟨[], [], some e⟩
          | .ok attrs =>
            let out := runLoop pf isoParse tr canc total (i + 1) rest
            ⟨⟨g, attrs⟩ :: out.features, progressAt i total :: out.reports, out.err⟩

/-- The inputs of one invocation of `processAlgorithm` that the claims
depend on.  `extent_wgs84` is the extent after reprojection to WGS84
(`none` when `extent.isNull()`); `start_time` is `none` when
`start_time.isValid()` is false; `evalOutcome` is the behaviour of
`eval(params_str)`; `reply` the finished network exchange; `sinkOk`
whether `parameterAsSink` produced a sink; `canc` the cancellation flag
by loop iteration. -/
structure AlgInput where
  params_str : String
  evalOutcome : EvalOutcome
  extent_wgs84 : Option Extent4
  start_time : Option Int
  duration_minutes : Int
  reply : NetReply
  sinkOk : Bool
  dest_id : String
  canc : Nat → Bool

/-- The value of one run: a raised failure, the early return of line 178
that maps `OUTPUT` to `None`, or the normal return of line 244 that maps
`OUTPUT` to `dest_id`. -/
inductive AlgResult where
  | failed (e : AlgFailure)
  | noOutput
  | output (dest_id : String)

/-- Observable trace of one run: whether the GET was issued (line 149),
whether `parameterAsSink` was called (line 203), the features written,
the progress values reported, the informational notices, and the result. -/
structure AlgTrace where
  netRequested : Bool
  sinkOpened : Bool
  features : List Feature
  reports : List Nat
  infos : List Info
  result : AlgResult

/-- Lines 113-138: the final parameters dict (extra parameters first,
then extent bounds, then the time keys) plus the notices pushed. -/
def buildParams (fmt : Int → String) (inp : AlgInput) :
    Except AlgFailure (Dict × List Info) :=
  match parseParams inp.params_str inp.evalOutcome with
  | .error e => .error e
  | .ok params =>
    .ok (setTimeParams fmt (setExtentParams params inp.extent_wgs84)
          inp.start_time inp.duration_minutes)

/-- The whole of `processAlgorithm` (lines 104-244), as the trace of one
run. -/
def processAlgorithm (pf : String → Option ℚ) (isoParse : String → Option Nat)
    (fmt : Int → String) (tr : Point → Point) (inp : AlgInput) : AlgTrace :=
  match buildParams fmt inp with
  | .error e => ⟨false, false, [], [], [], .failed e⟩
  | .ok (_params, infos0) =>
    let infos1 := infos0 ++ [Info.requesting]
    match fetchData inp.reply with
    | .error e => ⟨true, false, [], [], infos1, .failed e⟩
    | .ok data =>
      match data with
      | .arr (item0 :: items) =>
        if inp.sinkOk then
          let all := item0 :: items
          let infos2 := infos1 ++ [Info.processingCount all.length]
          let out := runLoop pf isoParse tr inp.canc all.length 0 all
          match out.err with
          | some e => ⟨true, true, out.features, out.reports, infos2, .failed (.py e)⟩
          | none => ⟨true, true, out.features, out.reports, infos2, .output inp.dest_id⟩
        else ⟨true, true, [], [], infos1, .failed (.proc .invalidOutput)⟩
      | _ => ⟨true, false, [], [], infos1 ++ [Info.emptyResponse], .noOutput⟩

end StrideLocations


namespace StrideLocations

/-! Concrete inputs used by the per-claim counterexamples and
witnesses below. -/

def c1item : Dict := [("lon", .str "abc"), ("lat", .num 32), ("id", .num 7)]
def c1inp : AlgInput :=
  ⟨"", .ok .null, none, none, 5, ⟨false, 200, some (.arr [.obj c1item])⟩,
    true, "destination", fun _ => false⟩

def c1bitem : Dict := [("lon", .str "abc")]

def c1battrs : List Attr :=
  [.nullVariant, .nullVariant, .nullVariant, .nullVariant, .raw (.str "abc"),
   .nullVariant, .nullVariant, .nullVariant, .nullVariant, .nullVariant,
   .nullVariant, .nullVariant, .nullVariant, .nullVariant, .nullVariant,
   .nullVariant, .nullVariant, .nullVariant]
def c2inp : AlgInput :=
  ⟨"bad literal", .synError, none, none, 5,
    ⟨false, 200, some (.arr [])⟩, true, "destination", fun _ => false⟩
def c3item : Dict := [("lon", .str "abc"), ("lat", .num 32), ("id", .num 1)]
def c3inp : AlgInput :=
  ⟨"", .ok .null, none, none, 5, ⟨false, 200, some (.arr [.obj c3item])⟩,
    true, "destination", fun _ => false⟩
def c3winp : AlgInput :=
  ⟨"", .ok .null, none, none, 5,
    ⟨false, 200, some (.arr [.obj [("id", .num 1)], .obj [("id", .num 2)]])⟩,
    true, "destination", fun _ => false⟩
def c4inp : AlgInput :=
  ⟨"", .ok .null, none, none, 5, ⟨false, 200, some (.arr [])⟩,
    true, "destination", fun _ => false⟩
def c5inpA : AlgInput :=
  ⟨"", .ok .null, none, some 1000, 0, ⟨false, 200, some (.arr [])⟩,
    true, "destination", fun _ => false⟩
def c5inpB : AlgInput :=
  ⟨"", .ok .null, none, some 1000, 5, ⟨false, 200, some (.arr [])⟩,
    true, "destination", fun _ => false⟩
def c6inp : AlgInput :=
  ⟨"extra", .ok (.obj [("lon__greater_or_equal", .num 999)]),
    some ⟨34, 35, 31, 32⟩, none, 5, ⟨false, 200, some (.arr [])⟩,
    true, "destination", fun _ => false⟩
def c7item : Dict := [("recorded_at_time", .num 5)]
def c8item : Dict := [("recorded_at_time", .str "not a date")]
def c9inp : AlgInput :=
  ⟨"", .ok .null, none, none, 5,
    ⟨false, 200, some (.arr [.obj [("id", .num 1)], .obj [("id", .num 2)]])⟩,
    true, "destination", fun k => decide (k = 1)⟩
def c10inp : AlgInput :=
  ⟨"", .ok .null, none, none, 5,
    ⟨false, 200, some (.arr [.obj [("lon", .num 34), ("lat", .num 32)]])⟩,
    true, "destination", fun _ => false⟩
def c10feat : Feature :=
  ((processAlgorithm floatOfString (fun _ => none) (fun _ => "") id
    c10inp).features).headD ⟨none, []⟩

/-- Returns `true` exactly on the non-raising outcomes. -/
def exceptOk {ε α : Type} : Except ε α → Bool
  | .ok _ => true
  | .error _ => false

/-- A response item that flows through one loop iteration without being
skipped (`continue`) and without raising: it is a dict, its coordinates
are absent, null, or both parseable, and attribute mapping succeeds. -/
def recordEmits (pf : String → Option ℚ) (isoParse : String → Option Nat)
    (v : Value) : Bool :=
  match v with
  | .obj kvs =>
    (match pyGet kvs "lon", pyGet kvs "lat" with
     | some lonv, some latv => (pyFloat pf lonv).isSome && (pyFloat pf latv).isSome
     | _, _ => true)
    && exceptOk (mapAttributes isoParse kvs)
  | _ => false

theorem dictGet_dictSet_self (d : Dict) (k : String) (v : Value) :
    dictGet (dictSet d k v) k = some v := by
  induction d with
  | nil => simp [dictSet, dictGet, List.find?]
  | cons kv rest ih =>
    by_cases h : kv.1 = k
    · simp [dictSet, h, dictGet, List.find?]
    · have hb : (kv.1 == k) = false := by simp [h]
      simp only [dictSet, if_neg h, dictGet, List.find?, hb] at ih ⊢
      exact ih

theorem dictGet_dictSet_ne (d : Dict) (k k2 : String) (v : Value)
    (h : k ≠ k2) : dictGet (dictSet d k v) k2 = dictGet d k2 := by
  have hb : (k == k2) = false := by simp [h]
  induction d with
  | nil => simp [dictSet, dictGet, List.find?, hb]
  | cons kv rest ih =>
    by_cases hk : kv.1 = k
    · have h3 : (kv.1 == k2) = false := by simp [hk, h]
      simp [dictSet, hk, dictGet, List.find?, hb, h3]
    · by_cases hk2 : kv.1 = k2
      · have h3 : (kv.1 == k2) = true := by simp [hk2]
        simp [dictSet, if_neg hk, dictGet, List.find?, h3]
      · have h3 : (kv.1 == k2) = false := by simp [hk2]
        simp only [dictSet, if_neg hk, dictGet, List.find?, h3] at ih ⊢
        exact ih

end StrideLocations

namespace StrideLocations

theorem recordEmits_spec (pf : String → Option ℚ) (isoParse : String → Option Nat)
    (tr : Point → Point) (v : Value) (h : recordEmits pf isoParse v = true) :
    ∃ kvs g attrs, v = .obj kvs ∧ geomStep pf tr kvs = .withGeom g ∧
      mapAttributes isoParse kvs = .ok attrs := by
  cases v with
  | obj kvs =>
    simp only [recordEmits, Bool.and_eq_true] at h
    obtain ⟨h1, h2⟩ := h
    obtain ⟨attrs, hattrs⟩ : ∃ attrs, mapAttributes isoParse kvs = .ok attrs := by
      cases hm : mapAttributes isoParse kvs with
      | ok a => exact ⟨a, rfl⟩
      | error e => rw [hm] at h2; simp [exceptOk] at h2
    refine ⟨kvs, ?_⟩
    cases hlon : pyGet kvs "lon" with
    | none =>
      cases hlat : pyGet kvs "lat" with
      | none => exact ⟨none, attrs, rfl, by simp [geomStep, hlon, hlat], hattrs⟩
      | some latv => exact ⟨none, attrs, rfl, by simp [geomStep, hlon, hlat], hattrs⟩
    | some lonv =>
      cases hlat : pyGet kvs "lat" with
      | none => exact ⟨none, attrs, rfl, by simp [geomStep, hlon, hlat], hattrs⟩
      | some latv =>
        rw [hlon, hlat] at h1
        obtain ⟨hf1, hf2⟩ : (pyFloat pf lonv).isSome = true ∧
            (pyFloat pf latv).isSome = true := by simpa using h1
        obtain ⟨x, hx⟩ := Option.isSome_iff_exists.mp hf1
        obtain ⟨y, hy⟩ := Option.isSome_iff_exists.mp hf2
        exact ⟨some (tr (x, y)), attrs, rfl,
          by simp [geomStep, hlon, hlat, hx, hy], hattrs⟩
  | null => simp [recordEmits] at h
  | bool b => simp [recordEmits] at h
  | num q => simp [recordEmits] at h
  | str s => simp [recordEmits] at h
  | arr l => simp [recordEmits] at h

theorem runLoop_cons_emit (pf : String → Option ℚ) (isoParse : String → Option Nat)
    (tr : Point → Point) (canc : Nat → Bool) (total i : Nat) (v : Value)
    (rest : List Value) (hc : canc i = false)
    (h : recordEmits pf isoParse v = true) :
    ∃ g attrs, runLoop pf isoParse tr canc total i (v :: rest) =
      ⟨⟨g, attrs⟩ :: (runLoop pf isoParse tr canc total (i + 1) rest).features,
       progressAt i total :: (runLoop pf isoParse tr canc total (i + 1) rest).reports,
       (runLoop pf isoParse tr canc total (i + 1) rest).err⟩ := by
  obtain ⟨kvs, g, attrs, rfl, hg, ha⟩ := recordEmits_spec pf isoParse tr v h
  exact ⟨g, attrs, by simp [runLoop, hc, getDict, hg, ha]⟩

theorem runLoop_cons_skip (pf : String → Option ℚ) (isoParse : String → Option Nat)
    (tr : Point → Point) (canc : Nat → Bool) (total i : Nat) (kvs : Dict)
    (rest : List Value) (hc : canc i = false)
    (hskip : geomStep pf tr kvs = .skipRecord) :
    runLoop pf isoParse tr canc total i (.obj kvs :: rest) =
      runLoop pf isoParse tr canc total (i + 1) rest := by
  simp [runLoop, hc, getDict, hskip]

theorem geomStep_skip_of_unparsable (pf : String → Option ℚ) (tr : Point → Point)
    (kvs : Dict) (lonv latv : Value)
    (hlon : pyGet kvs "lon" = some lonv) (hlat : pyGet kvs "lat" = some latv)
    (hbad : pyFloat pf lonv = none ∨ pyFloat pf latv = none) :
    geomStep pf tr kvs = .skipRecord := by
  rcases hbad with hb | hb
  · cases hy : pyFloat pf latv <;> simp [geomStep, hlon, hlat, hb, hy]
  · cases hx : pyFloat pf lonv <;> simp [geomStep, hlon, hlat, hx, hb]

theorem runLoop_all_emit (pf : String → Option ℚ) (isoParse : String → Option Nat)
    (tr : Point → Point) (canc : Nat → Bool) (total : Nat)
    (hc : ∀ k, canc k = false) :
    ∀ (l : List Value) (i : Nat),
      (∀ v ∈ l, recordEmits pf isoParse v = true) →
      ∃ fs, runLoop pf isoParse tr canc total i l =
          ⟨fs, (List.range' i l.length).map (fun k => progressAt k total), none⟩ ∧
        fs.length = l.length := by
  intro l
  induction l with
  | nil => intro i _; exact ⟨[], rfl, rfl⟩
  | cons v rest ih =>
    intro i hall
    obtain ⟨fs, hrun, hlen⟩ := ih (i + 1) (fun w hw => hall w (List.mem_cons_of_mem _ hw))
    obtain ⟨g, attrs, hstep⟩ :=
      runLoop_cons_emit pf isoParse tr canc total i v rest (hc i)
        (hall v (List.mem_cons_self _ _))
    refine ⟨⟨g, attrs⟩ :: fs, ?_, by simp [hlen]⟩
    rw [hstep, hrun]
    simp [List.range'_succ]

theorem runLoop_cancel_at (pf : String → Option ℚ) (isoParse : String → Option Nat)
    (tr : Point → Point) (canc : Nat → Bool) (total : Nat) :
    ∀ (j : Nat) (l : List Value) (i : Nat),
      (∀ k, k < j → canc (i + k) = false) → canc (i + j) = true →
      j < l.length →
      (∀ v ∈ l.take j, recordEmits pf isoParse v = true) →
      ∃ fs, runLoop pf isoParse tr canc total i l =
          ⟨fs, (List.range' i j).map (fun k => progressAt k total), none⟩ ∧
        fs.length = j := by
  intro j
  induction j with
  | zero =>
    intro l i _ hcj hlen _
    cases l with
    | nil => simp at hlen
    | cons v rest =>
      refine ⟨[], ?_, rfl⟩
      have hci : canc i = true := by simpa using hcj
      simp [runLoop, hci]
  | succ j ih =>
    intro l i hlt hcj hlen htake
    cases l with
    | nil => simp at hlen
    | cons v rest =>
      have hc0 : canc i = false := by simpa using hlt 0 (Nat.succ_pos j)
      have hv : recordEmits pf isoParse v = true := by
        apply htake; rw [List.take_succ_cons]; exact List.mem_cons_self _ _
      obtain ⟨g, attrs, hstep⟩ :=
        runLoop_cons_emit pf isoParse tr canc total i v rest hc0 hv
      have hlen2 : j < rest.length := by simp at hlen; omega
      obtain ⟨fs, hrun, hflen⟩ := ih rest (i + 1)
        (fun k hk => by
          have h1 := hlt (k + 1) (by omega)
          have h2 : i + (k + 1) = i + 1 + k := by omega
          rwa [h2] at h1)
        (by have h2 : i + 1 + j = i + (j + 1) := by omega
            rw [h2]; exact hcj)
        hlen2
        (fun w hw => htake w (by rw [List.take_succ_cons]; exact List.mem_cons_of_mem _ hw))
      refine ⟨⟨g, attrs⟩ :: fs, ?_, by simp [hflen]⟩
      rw [hstep, hrun]
      simp [List.range'_succ]

end StrideLocations

namespace StrideLocations

theorem mapAttrList_length (isoParse : String → Option Nat) (item : Dict) :
    ∀ (fds : List (String × FieldType)) (attrs : List Attr),
      mapAttrList isoParse item fds = .ok attrs → attrs.length = fds.length := by
  intro fds
  induction fds with
  | nil =>
    intro attrs h
    simp only [mapAttrList] at h
    cases h
    rfl
  | cons fd rest ih =>
    intro attrs h
    simp only [mapAttrList] at h
    cases h1 : mapAttr isoParse item fd with
    | error e => rw [h1] at h; cases h
    | ok a =>
      rw [h1] at h
      cases h2 : mapAttrList isoParse item rest with
      | error e => rw [h2] at h; cases h
      | ok tl =>
        rw [h2] at h
        cases h
        simp [ih tl h2]

theorem mapAttrList_get (isoParse : String → Option Nat) (item : Dict) :
    ∀ (fds : List (String × FieldType)) (attrs : List Attr),
      mapAttrList isoParse item fds = .ok attrs →
      ∀ (n : Nat) (h1 : n < fds.length) (h2 : n < attrs.length),
        mapAttr isoParse item (fds.get ⟨n, h1⟩) = .ok (attrs.get ⟨n, h2⟩) := by
  intro fds
  induction fds with
  | nil => intro attrs h n h1 h2; simp at h1
  | cons fd rest ih =>
    intro attrs h n h1 h2
    simp only [mapAttrList] at h
    cases hm : mapAttr isoParse item fd with
    | error e => rw [hm] at h; cases h
    | ok a =>
      rw [hm] at h
      cases hr : mapAttrList isoParse item rest with
      | error e => rw [hr] at h; cases h
      | ok tl =>
        rw [hr] at h
        cases h
        cases n with
        | zero => simpa using hm
        | succ m =>
          exact ih tl hr m (Nat.lt_of_succ_lt_succ h1) (Nat.lt_of_succ_lt_succ h2)

theorem runLoop_features_mapped (pf : String → Option ℚ)
    (isoParse : String → Option Nat) (tr : Point → Point) (canc : Nat → Bool)
    (total : Nat) :
    ∀ (l : List Value) (i : Nat) (f : Feature),
      f ∈ (runLoop pf isoParse tr canc total i l).features →
      ∃ item, mapAttributes isoParse item = .ok f.attrs := by
  intro l
  induction l with
  | nil => intro i f hf; simp [runLoop] at hf
  | cons v rest ih =>
    intro i f hf
    cases hc : canc i with
    | true => simp [runLoop, hc] at hf
    | false =>
      cases hd : getDict v with
      | error e => simp [runLoop, hc, hd] at hf
      | ok item =>
        cases hg : geomStep pf tr item with
        | skipRecord =>
          rw [runLoop] at hf
          simp only [hc, hd, hg, Bool.false_eq_true, if_false] at hf
          exact ih (i + 1) f hf
        | withGeom g =>
          cases hm : mapAttributes isoParse item with
          | error e => simp [runLoop, hc, hd, hg, hm] at hf
          | ok attrs =>
            rw [runLoop] at hf
            simp only [hc, hd, hg, hm, Bool.false_eq_true, if_false,
              List.mem_cons] at hf
            rcases hf with rfl | hf
            · exact ⟨item, by simp [hm]⟩
            · exact ih (i + 1) f hf

end StrideLocations

namespace StrideLocations

theorem dictGet_setExtentParams_ne (params : Dict) (eo : Option Extent4) (k : String)
    (h1 : k ≠ "lon__greater_or_equal") (h2 : k ≠ "lon__lower_or_equal")
    (h3 : k ≠ "lat__greater_or_equal") (h4 : k ≠ "lat__lower_or_equal") :
    dictGet (setExtentParams params eo) k = dictGet params k := by
  cases eo with
  | none => rfl
  | some e =>
    simp only [setExtentParams]
    rw [dictGet_dictSet_ne _ _ _ _ (Ne.symm h4)]
    rw [dictGet_dictSet_ne _ _ _ _ (Ne.symm h3)]
    rw [dictGet_dictSet_ne _ _ _ _ (Ne.symm h2)]
    rw [dictGet_dictSet_ne _ _ _ _ (Ne.symm h1)]

theorem dictGet_setExtentParams_bounds (params : Dict) (e : Extent4) :
    dictGet (setExtentParams params (some e)) "lon__greater_or_equal" = some (.num e.xMin) ∧
    dictGet (setExtentParams params (some e)) "lon__lower_or_equal" = some (.num e.xMax) ∧
    dictGet (setExtentParams params (some e)) "lat__greater_or_equal" = some (.num e.yMin) ∧
    dictGet (setExtentParams params (some e)) "lat__lower_or_equal" = some (.num e.yMax) := by
  simp only [setExtentParams]
  refine ⟨?_, ?_, ?_, ?_⟩
  · rw [dictGet_dictSet_ne _ _ _ _ (by decide)]
    rw [dictGet_dictSet_ne _ _ _ _ (by decide)]
    rw [dictGet_dictSet_ne _ _ _ _ (by decide)]
    exact dictGet_dictSet_self _ _ _
  · rw [dictGet_dictSet_ne _ _ _ _ (by decide)]
    rw [dictGet_dictSet_ne _ _ _ _ (by decide)]
    exact dictGet_dictSet_self _ _ _
  · rw [dictGet_dictSet_ne _ _ _ _ (by decide)]
    exact dictGet_dictSet_self _ _ _
  · exact dictGet_dictSet_self _ _ _

theorem dictGet_setTimeParams_ne (fmt : Int → String) (params : Dict)
    (start_time : Option Int) (duration_minutes : Int) (k : String)
    (h1 : k ≠ "recorded_at_time_from") (h2 : k ≠ "recorded_at_time_to") :
    dictGet (setTimeParams fmt params start_time duration_minutes).1 k =
      dictGet params k := by
  cases start_time with
  | none => rfl
  | some t =>
    simp only [setTimeParams]
    by_cases hd : duration_minutes > 0
    · simp only [if_pos hd]
      rw [dictGet_dictSet_ne _ _ _ _ (Ne.symm h2)]
      rw [dictGet_dictSet_ne _ _ _ _ (Ne.symm h1)]
    · simp only [if_neg hd]
      rw [dictGet_dictSet_ne _ _ _ _ (Ne.symm h1)]

theorem progressAt_le_100 (k total : Nat) (h : k < total) :
    progressAt k total ≤ 100 := by
  have h1 : (k + 1) * 100 ≤ total * 100 := Nat.mul_le_mul_right _ (by omega)
  calc progressAt k total = (k + 1) * 100 / total := rfl
    _ ≤ total * 100 / total := Nat.div_le_div_right h1
    _ = 100 := Nat.mul_div_cancel_left 100 (by omega)

theorem progressAt_mono (k m total : Nat) (h : k ≤ m) :
    progressAt k total ≤ progressAt m total :=
  Nat.div_le_div_right (Nat.mul_le_mul_right _ (by omega))

theorem progressAt_last (total : Nat) (h : 0 < total) :
    progressAt (total - 1) total = 100 := by
  unfold progressAt
  have h1 : total - 1 + 1 = total := by omega
  rw [h1]
  exact Nat.mul_div_cancel_left 100 h

theorem map_range'_getLast? (f : Nat → Nat) :
    ∀ (n s : Nat), 0 < n →
      ((List.range' s n).map f).getLast? = some (f (s + n - 1)) := by
  intro n
  induction n with
  | zero => intro s h; omega
  | succ m ih =>
    intro s _
    cases m with
    | zero => simp [List.range'_succ]
    | succ m2 =>
      rw [List.range'_succ, List.map_cons]
      rw [show List.range' (s + 1) (m2 + 1) = (s + 1) :: List.range' (s + 2) m2 from
        List.range'_succ (s + 1) m2 1, List.map_cons, List.getLast?_cons_cons,
        ← List.map_cons f (s + 1) (List.range' (s + 2) m2),
        ← List.range'_succ (s + 1) m2 1]
      rw [ih (s + 1) (by omega)]
      congr 2
      omega

end StrideLocations

namespace StrideLocations

theorem mapAttrList_ok_of_slots (isoParse : String → Option Nat) (item : Dict) :
    ∀ fds : List (String × FieldType),
      (∀ fd ∈ fds, ∃ a, mapAttr isoParse item fd = .ok a) →
      ∃ attrs, mapAttrList isoParse item fds = .ok attrs := by
  intro fds
  induction fds with
  | nil => intro _; exact ⟨[], rfl⟩
  | cons fd rest ih =>
    intro h
    obtain ⟨a, ha⟩ := h fd (List.mem_cons_self _ _)
    obtain ⟨tl, htl⟩ := ih (fun fd2 h2 => h fd2 (List.mem_cons_of_mem _ h2))
    exact ⟨a :: tl, by simp [mapAttrList, ha, htl]⟩

theorem mapAttr_ok_of_guard (isoParse : String → Option Nat) (item : Dict)
    (fd : String × FieldType)
    (hguard : fd.2 = .dateTime →
      ∀ v, pyGet item (originalKey fd.1) = some v → ∃ s, v = .str s) :
    ∃ a, mapAttr isoParse item fd = .ok a := by
  cases hp : pyGet item (originalKey fd.1) with
  | none => exact ⟨.nullVariant, by simp [mapAttr, hp]⟩
  | some v =>
    cases hft : fd.2 with
    | dateTime =>
      obtain ⟨s, rfl⟩ := hguard hft v hp
      exact ⟨.dateTime (isoParse s), by simp [mapAttr, hp, hft]⟩
    | longlong => exact ⟨.raw v, by simp [mapAttr, hp, hft]⟩
    | double => exact ⟨.raw v, by simp [mapAttr, hp, hft]⟩
    | int => exact ⟨.raw v, by simp [mapAttr, hp, hft]⟩
    | string => exact ⟨.raw v, by simp [mapAttr, hp, hft]⟩

theorem chain'_map_progress (total n : Nat) :
    List.Chain' (· ≤ ·) ((List.range n).map (fun k => progressAt k total)) := by
  rw [List.chain'_map]
  cases n with
  | zero => simp
  | succ m =>
    rw [List.chain'_range_succ]
    intro i _
    exact progressAt_mono i (i + 1) total (by omega)

end StrideLocations

namespace StrideLocations

/-- Claim C2: for every non-empty extra-parameters text whose `eval`
either fails to parse (SyntaxError) or yields a value that is not a
mapping, `processAlgorithm` fails with the InvalidParameterFormat
`QgsProcessingException` ("Invalid format for parameters.") and the
network request is never issued. -/
theorem C2_invalid_params (pf : String → Option ℚ) (isoParse : String → Option Nat)
    (fmt : Int → String) (tr : Point → Point) (inp : AlgInput)
    (hne : inp.params_str ≠ "")
    (hev : inp.evalOutcome = .synError ∨
      ∃ v, inp.evalOutcome = .ok v ∧ ∀ kvs, v ≠ .obj kvs) :
    (processAlgorithm pf isoParse fmt tr inp).result =
        .failed (.proc .invalidParameterFormat) ∧
    (processAlgorithm pf isoParse fmt tr inp).netRequested = false := by
  have hparse : parseParams inp.params_str inp.evalOutcome =
      .error (.proc .invalidParameterFormat) := by
    rcases hev with h | ⟨v, hv, hnobj⟩
    · simp [parseParams, hne, h]
    · rw [hv]
      cases v with
      | obj kvs => exact absurd rfl (hnobj kvs)
      | null => simp [parseParams, hne]
      | bool b => simp [parseParams, hne]
      | num q => simp [parseParams, hne]
      | str s => simp [parseParams, hne]
      | arr l => simp [parseParams, hne]
  constructor <;> simp [processAlgorithm, buildParams, hparse]


theorem C2_invalid_params_witness :
    (processAlgorithm floatOfString (fun _ => none) (fun _ => "") id c2inp).result =
        .failed (.proc .invalidParameterFormat) ∧
    (processAlgorithm floatOfString (fun _ => none) (fun _ => "") id c2inp).netRequested
        = false :=
  C2_invalid_params floatOfString (fun _ => none) (fun _ => "") id c2inp
    (by decide) (Or.inl rfl)

/-- Claim C4: when the parameter stage succeeds and the HTTP exchange
yields status 200 with a JSON body that is not a non-empty array, the
run returns the "no output produced" result (`OUTPUT` mapped to `None`)
with an informational notice, raises no error, and never opens the
sink. -/
theorem C4_empty_response (pf : String → Option ℚ) (isoParse : String → Option Nat)
    (fmt : Int → String) (tr : Point → Point) (inp : AlgInput)
    (p : Dict) (infos0 : List Info)
    (hb : buildParams fmt inp = .ok (p, infos0))
    (hnet : inp.reply.transportError = false)
    (hstatus : inp.reply.statusCode = 200)
    (v : Value) (hbody : inp.reply.body = some v)
    (hv : v = .arr [] ∨ ∀ l, v ≠ .arr l) :
    (processAlgorithm pf isoParse fmt tr inp).result = .noOutput ∧
    (processAlgorithm pf isoParse fmt tr inp).sinkOpened = false ∧
    Info.emptyResponse ∈ (processAlgorithm pf isoParse fmt tr inp).infos := by
  have hfetch : fetchData inp.reply = .ok v := by
    simp [fetchData, hnet, hstatus, hbody]
  rcases hv with rfl | hnl
  · simp [processAlgorithm, hb, hfetch]
  · cases v with
    | arr l =>
      cases l with
      | nil => simp [processAlgorithm, hb, hfetch]
      | cons a rest => exact absurd rfl (hnl (a :: rest))
    | null => simp [processAlgorithm, hb, hfetch]
    | bool b => simp [processAlgorithm, hb, hfetch]
    | num q => simp [processAlgorithm, hb, hfetch]
    | str s => simp [processAlgorithm, hb, hfetch]
    | obj kvs => simp [processAlgorithm, hb, hfetch]


theorem C4_empty_response_witness :
    (processAlgorithm floatOfString (fun _ => none) (fun _ => "") id c4inp).result
        = .noOutput ∧
    (processAlgorithm floatOfString (fun _ => none) (fun _ => "") id c4inp).sinkOpened
        = false ∧
    Info.emptyResponse ∈
      (processAlgorithm floatOfString (fun _ => none) (fun _ => "") id c4inp).infos :=
  C4_empty_response floatOfString (fun _ => none) (fun _ => "") id c4inp [] []
    rfl rfl rfl (.arr []) rfl (Or.inl rfl)

end StrideLocations

namespace StrideLocations

theorem setTimeParams_some_pos (fmt : Int → String) (params : Dict) (t d : Int)
    (hd : d > 0) :
    (setTimeParams fmt params (some t) d).1 =
      dictSet (dictSet params "recorded_at_time_from" (.str (fmt t)))
        "recorded_at_time_to" (.str (fmt (addSecs t (d * 60)))) := by
  simp [setTimeParams, hd]

theorem setTimeParams_some_neg (fmt : Int → String) (params : Dict) (t d : Int)
    (hd : ¬ d > 0) :
    (setTimeParams fmt params (some t) d).1 =
      dictSet params "recorded_at_time_from" (.str (fmt t)) := by
  simp [setTimeParams, hd]

/-- Claim C5: for every `duration_minutes ≤ 0` the builder leaves
`recorded_at_time_to` unset even when a valid start time sets
`recorded_at_time_from`; for `duration_minutes > 0` with a valid start
time, `recorded_at_time_to` is the start time plus
`duration_minutes * 60` seconds, formatted by the same formatter as
`recorded_at_time_from`. -/
theorem C5_time_window (fmt : Int → String) (inp : AlgInput) (p0 p : Dict)
    (infos : List Info)
    (h0 : parseParams inp.params_str inp.evalOutcome = .ok p0)
    (hto : dictGet p0 "recorded_at_time_to" = none)
    (hb : buildParams fmt inp = .ok (p, infos)) :
    (inp.duration_minutes ≤ 0 → dictGet p "recorded_at_time_to" = none) ∧
    (∀ t, inp.start_time = some t →
      dictGet p "recorded_at_time_from" = some (.str (fmt t)) ∧
      (0 < inp.duration_minutes →
        dictGet p "recorded_at_time_to" =
          some (.str (fmt (addSecs t (inp.duration_minutes * 60)))))) := by
  simp only [buildParams, h0] at hb
  injection hb with hpair
  have hp : (setTimeParams fmt (setExtentParams p0 inp.extent_wgs84)
      inp.start_time inp.duration_minutes).1 = p := congrArg Prod.fst hpair
  have hp1 : dictGet (setExtentParams p0 inp.extent_wgs84) "recorded_at_time_to"
      = none := by
    rw [dictGet_setExtentParams_ne _ _ _ (by decide) (by decide) (by decide) (by decide)]
    exact hto
  constructor
  · intro hdle
    have hd : ¬ inp.duration_minutes > 0 := by omega
    cases hst : inp.start_time with
    | none =>
      rw [← hp, hst]
      exact hp1
    | some t =>
      rw [← hp, hst, setTimeParams_some_neg fmt _ t _ hd]
      rw [dictGet_dictSet_ne _ _ _ _ (by decide)]
      exact hp1
  · intro t hst
    by_cases hd : inp.duration_minutes > 0
    · rw [← hp, hst, setTimeParams_some_pos fmt _ t _ hd]
      constructor
      · rw [dictGet_dictSet_ne _ _ _ _ (by decide)]
        exact dictGet_dictSet_self _ _ _
      · intro _
        exact dictGet_dictSet_self _ _ _
    · rw [← hp, hst, setTimeParams_some_neg fmt _ t _ hd]
      constructor
      · exact dictGet_dictSet_self _ _ _
      · intro hpos
        exact absurd hpos hd



theorem C5_time_window_witness :
    (dictGet (setTimeParams (fun t => toString t) (setExtentParams [] none)
        c5inpA.start_time c5inpA.duration_minutes).1 "recorded_at_time_to" = none ∧
      dictGet (setTimeParams (fun t => toString t) (setExtentParams [] none)
        c5inpA.start_time c5inpA.duration_minutes).1 "recorded_at_time_from"
        = some (.str (toString (1000 : Int)))) ∧
    dictGet (setTimeParams (fun t => toString t) (setExtentParams [] none)
        c5inpB.start_time c5inpB.duration_minutes).1 "recorded_at_time_to"
      = some (.str (toString (addSecs 1000 (5 * 60)))) := by
  have hA := C5_time_window (fun t => toString t) c5inpA [] _ _ rfl rfl rfl
  have hB := C5_time_window (fun t => toString t) c5inpB [] _ _ rfl rfl rfl
  exact ⟨⟨hA.1 (by decide), (hA.2 1000 rfl).1⟩, (hB.2 1000 rfl).2 (by decide)⟩

/-- Claim C6: when an extent is set, the four bounding-box keys derived
from the reprojected extent are present in the final parameters dict
with the extent bounds as values, overwriting any same-named keys from
the user-supplied extra parameters (extra parameters first, then
bounds, then time keys). -/
theorem C6_extent_overwrites (fmt : Int → String) (inp : AlgInput) (e : Extent4)
    (p : Dict) (infos : List Info)
    (he : inp.extent_wgs84 = some e)
    (hb : buildParams fmt inp = .ok (p, infos)) :
    dictGet p "lon__greater_or_equal" = some (.num e.xMin) ∧
    dictGet p "lon__lower_or_equal" = some (.num e.xMax) ∧
    dictGet p "lat__greater_or_equal" = some (.num e.yMin) ∧
    dictGet p "lat__lower_or_equal" = some (.num e.yMax) := by
  cases h0 : parseParams inp.params_str inp.evalOutcome with
  | error e2 =>
    simp only [buildParams, h0] at hb
    exact Except.noConfusion hb
  | ok p0 =>
    simp only [buildParams, h0] at hb
    injection hb with hpair
    have hp : (setTimeParams fmt (setExtentParams p0 inp.extent_wgs84)
        inp.start_time inp.duration_minutes).1 = p := congrArg Prod.fst hpair
    rw [← hp, he]
    obtain ⟨hA, hB, hC, hD⟩ := dictGet_setExtentParams_bounds p0 e
    refine ⟨?_, ?_, ?_, ?_⟩
    · rw [dictGet_setTimeParams_ne _ _ _ _ _ (by decide) (by decide)]; exact hA
    · rw [dictGet_setTimeParams_ne _ _ _ _ _ (by decide) (by decide)]; exact hB
    · rw [dictGet_setTimeParams_ne _ _ _ _ _ (by decide) (by decide)]; exact hC
    · rw [dictGet_setTimeParams_ne _ _ _ _ _ (by decide) (by decide)]; exact hD


theorem C6_extent_overwrites_witness :
    dictGet ((setTimeParams (fun _ => "") (setExtentParams
        [("lon__greater_or_equal", .num 999)] (some ⟨34, 35, 31, 32⟩))
        none 5).1) "lon__greater_or_equal" = some (.num 34) ∧
    dictGet ((setTimeParams (fun _ => "") (setExtentParams
        [("lon__greater_or_equal", .num 999)] (some ⟨34, 35, 31, 32⟩))
        none 5).1) "lat__lower_or_equal" = some (.num 32) := by
  have h := C6_extent_overwrites (fun _ => "") c6inp ⟨34, 35, 31, 32⟩ _ _ rfl rfl
  exact ⟨h.1, h.2.2.2⟩

end StrideLocations

namespace StrideLocations



/-- Claim C1, counterexample: a record whose `lon` is present and
non-null but not parseable as a float is NOT emitted to the sink — the
`except` clause on line 224 runs `continue`, dropping the whole record —
so the run writes zero features even though the batch itself finishes
normally.  This refutes "the record is still emitted to the sink with
its other attributes populated but with no geometry". -/
theorem C1_counterexample :
    pyGet c1item "lon" = some (.str "abc") ∧
    floatOfString "abc" = none ∧
    (processAlgorithm floatOfString (fun _ => none) (fun _ => "") id c1inp).features
      = [] ∧
    (processAlgorithm floatOfString (fun _ => none) (fun _ => "") id c1inp).result
      = .output "destination" :=
  ⟨rfl, rfl, rfl, rfl⟩

/-- Claim C1 (amended): the coordinate-parse `try` of lines 220-225 is
only reached when BOTH `lon` and `lat` are present (non-null), so the
two cases differ.  (a) When both are present and at least one cannot be
parsed as a float, the record is skipped entirely — no feature, no
geometry and no progress report are produced for it — while the failure
is recovered locally: the loop continues with the remaining records
exactly as if the record were absent, and the batch is never aborted.
(b) When `lon` or `lat` is absent or null (even if the other one is
present and unparsable), the line-219 guard is false, no parse is
attempted, and the record IS emitted with its attributes, no geometry,
and a progress report, as the original claim said. -/
theorem C1_unparsable_coord_skips (pf : String → Option ℚ)
    (isoParse : String → Option Nat) (tr : Point → Point) (canc : Nat → Bool)
    (total i : Nat) (kvs : Dict) (rest : List Value)
    (hc : canc i = false) :
    (∀ lonv latv, pyGet kvs "lon" = some lonv → pyGet kvs "lat" = some latv →
      pyFloat pf lonv = none ∨ pyFloat pf latv = none →
      runLoop pf isoParse tr canc total i (.obj kvs :: rest) =
        runLoop pf isoParse tr canc total (i + 1) rest) ∧
    (∀ attrs, pyGet kvs "lon" = none ∨ pyGet kvs "lat" = none →
      mapAttributes isoParse kvs = .ok attrs →
      runLoop pf isoParse tr canc total i (.obj kvs :: rest) =
        ⟨⟨none, attrs⟩ :: (runLoop pf isoParse tr canc total (i + 1) rest).features,
         progressAt i total ::
           (runLoop pf isoParse tr canc total (i + 1) rest).reports,
         (runLoop pf isoParse tr canc total (i + 1) rest).err⟩) := by
  constructor
  · intro lonv latv hlon hlat hbad
    exact runLoop_cons_skip pf isoParse tr canc total i kvs rest hc
      (geomStep_skip_of_unparsable pf tr kvs lonv latv hlon hlat hbad)
  · intro attrs hmiss hmap
    have hg : geomStep pf tr kvs = .withGeom none := by
      rcases hmiss with h | h
      · cases h2 : pyGet kvs "lat" <;> simp [geomStep, h, h2]
      · cases h2 : pyGet kvs "lon" <;> simp [geomStep, h2, h]
    simp [runLoop, hc, getDict, hg, hmap]

theorem C1_unparsable_coord_skips_witness :
    (runLoop floatOfString (fun _ => none) id (fun _ => false) 2 0
        (.obj [("lon", .str "abc"), ("lat", .num 32)] :: [.obj [("id", .num 1)]]) =
      runLoop floatOfString (fun _ => none) id (fun _ => false) 2 1
        [.obj [("id", .num 1)]]) ∧
    runLoop floatOfString (fun _ => none) id (fun _ => false) 1 0
        [.obj c1bitem] =
      ⟨[⟨none, c1battrs⟩], [100], none⟩ :=
  ⟨(C1_unparsable_coord_skips floatOfString (fun _ => none) id (fun _ => false) 2 0
      [("lon", .str "abc"), ("lat", .num 32)] [.obj [("id", .num 1)]] rfl).1
      (.str "abc") (.num 32) rfl rfl (Or.inl rfl),
   (C1_unparsable_coord_skips floatOfString (fun _ => none) id (fun _ => false) 1 0
      c1bitem [] rfl).2 c1battrs (Or.inr rfl) rfl⟩



/-- Claim C3, counterexample: a run over a non-empty (one-record) list
that is never cancelled, in which NO progress value is reported at all —
the record is skipped by the coordinate-parse `continue`, which bypasses
`feedback.setProgress` — so progress is not reported after each record
and never reaches 100. -/
theorem C3_counterexample :
    (processAlgorithm floatOfString (fun _ => none) (fun _ => "") id c3inp).reports
      = [] ∧
    (processAlgorithm floatOfString (fun _ => none) (fun _ => "") id c3inp).result
      = .output "destination" :=
  ⟨rfl, rfl⟩

/-- Claim C3 (amended): for every run over a non-empty record list that
is not cancelled and in which every record passes the geometry and
mapping steps (none is dropped by the coordinate-parse `continue`, none
raises), a progress value is reported after each record; the values are
the percentages `(k+1)*100/total` of records processed, monotonically
nondecreasing, bounded by 100, and progress reaches 100 after the last
record. -/
theorem C3_progress (pf : String → Option ℚ) (isoParse : String → Option Nat)
    (fmt : Int → String) (tr : Point → Point) (inp : AlgInput)
    (p : Dict) (infos0 : List Info) (data : List Value)
    (hb : buildParams fmt inp = .ok (p, infos0))
    (hnet : inp.reply.transportError = false)
    (hstatus : inp.reply.statusCode = 200)
    (hbody : inp.reply.body = some (.arr data))
    (hne : data ≠ [])
    (hsink : inp.sinkOk = true)
    (hc : ∀ k, inp.canc k = false)
    (hall : ∀ v ∈ data, recordEmits pf isoParse v = true) :
    (processAlgorithm pf isoParse fmt tr inp).reports =
        (List.range data.length).map (fun k => progressAt k data.length) ∧
    (processAlgorithm pf isoParse fmt tr inp).reports.length = data.length ∧
    List.Chain' (· ≤ ·) (processAlgorithm pf isoParse fmt tr inp).reports ∧
    (∀ r ∈ (processAlgorithm pf isoParse fmt tr inp).reports, r ≤ 100) ∧
    (processAlgorithm pf isoParse fmt tr inp).reports.getLast? = some 100 := by
  have hfetch : fetchData inp.reply = .ok (.arr data) := by
    simp [fetchData, hnet, hstatus, hbody]
  cases data with
  | nil => exact absurd rfl hne
  | cons d0 ds =>
    obtain ⟨fs, hrun, hlen⟩ := runLoop_all_emit pf isoParse tr inp.canc
      (d0 :: ds).length hc (d0 :: ds) 0 hall
    simp only [List.length_cons] at hrun
    have hrep : (processAlgorithm pf isoParse fmt tr inp).reports =
        (List.range' 0 (d0 :: ds).length).map
          (fun k => progressAt k (d0 :: ds).length) := by
      simp [processAlgorithm, hb, hfetch, hsink, hrun]
    refine ⟨?_, ?_, ?_, ?_, ?_⟩
    · rw [hrep, List.range_eq_range']
    · rw [hrep]; simp
    · rw [hrep, ← List.range_eq_range']
      exact chain'_map_progress _ _
    · intro r hr
      rw [hrep] at hr
      simp only [List.mem_map, List.mem_range'_1] at hr
      obtain ⟨k, ⟨_, hk⟩, rfl⟩ := hr
      exact progressAt_le_100 _ _ (by simpa using hk)
    · rw [hrep, map_range'_getLast? _ _ 0 (by simp)]
      have h0 : 0 + (d0 :: ds).length - 1 = (d0 :: ds).length - 1 := by omega
      rw [h0, progressAt_last _ (by simp)]


theorem C3_progress_witness :
    (processAlgorithm floatOfString (fun _ => none) (fun _ => "") id c3winp).reports =
        (List.range 2).map (fun k => progressAt k 2) ∧
    (processAlgorithm floatOfString (fun _ => none) (fun _ => "") id c3winp).reports.length
        = 2 ∧
    List.Chain' (· ≤ ·)
      (processAlgorithm floatOfString (fun _ => none) (fun _ => "") id c3winp).reports ∧
    (∀ r ∈ (processAlgorithm floatOfString (fun _ => none) (fun _ => "") id
        c3winp).reports, r ≤ 100) ∧
    (processAlgorithm floatOfString (fun _ => none) (fun _ => "") id
        c3winp).reports.getLast? = some 100 :=
  C3_progress floatOfString (fun _ => none) (fun _ => "") id c3winp [] []
    [.obj [("id", .num 1)], .obj [("id", .num 2)]]
    rfl rfl rfl rfl (by intro h; cases h) rfl (fun _ => rfl)
    (by intro v hv
        simp only [List.mem_cons, List.not_mem_nil, or_false] at hv
        rcases hv with rfl | rfl
        · rfl
        · rfl)

end StrideLocations

namespace StrideLocations

/-- Claim C9: once cancellation is observed during emission (here: at
loop index `j`, the records before it all emitting), no further records
are written to the sink — exactly `j` features are written — and the
operation returns a partial, non-error result still carrying the sink
destination id. -/
theorem C9_cancel_partial (pf : String → Option ℚ) (isoParse : String → Option Nat)
    (fmt : Int → String) (tr : Point → Point) (inp : AlgInput)
    (p : Dict) (infos0 : List Info) (data : List Value) (j : Nat)
    (hb : buildParams fmt inp = .ok (p, infos0))
    (hnet : inp.reply.transportError = false)
    (hstatus : inp.reply.statusCode = 200)
    (hbody : inp.reply.body = some (.arr data))
    (hsink : inp.sinkOk = true)
    (hbefore : ∀ k, k < j → inp.canc k = false)
    (hat : inp.canc j = true)
    (hjlen : j < data.length)
    (htake : ∀ v ∈ data.take j, recordEmits pf isoParse v = true) :
    (processAlgorithm pf isoParse fmt tr inp).result = .output inp.dest_id ∧
    (processAlgorithm pf isoParse fmt tr inp).features.length = j ∧
    (processAlgorithm pf isoParse fmt tr inp).reports =
      (List.range j).map (fun k => progressAt k data.length) := by
  have hfetch : fetchData inp.reply = .ok (.arr data) := by
    simp [fetchData, hnet, hstatus, hbody]
  cases data with
  | nil => simp at hjlen
  | cons d0 ds =>
    obtain ⟨fs, hrun, hlen⟩ := runLoop_cancel_at pf isoParse tr inp.canc
      (d0 :: ds).length j (d0 :: ds) 0
      (fun k hk => by simpa using hbefore k hk)
      (by simpa using hat) hjlen htake
    simp only [List.length_cons] at hrun
    refine ⟨?_, ?_, ?_⟩
    · simp [processAlgorithm, hb, hfetch, hsink, hrun]
    · simp [processAlgorithm, hb, hfetch, hsink, hrun, hlen]
    · simp [processAlgorithm, hb, hfetch, hsink, hrun, List.range_eq_range']


theorem C9_cancel_partial_witness :
    (processAlgorithm floatOfString (fun _ => none) (fun _ => "") id c9inp).result
        = .output "destination" ∧
    (processAlgorithm floatOfString (fun _ => none) (fun _ => "") id
        c9inp).features.length = 1 ∧
    (processAlgorithm floatOfString (fun _ => none) (fun _ => "") id c9inp).reports
      = (List.range 1).map (fun k => progressAt k 2) :=
  C9_cancel_partial floatOfString (fun _ => none) (fun _ => "") id c9inp [] []
    [.obj [("id", .num 1)], .obj [("id", .num 2)]] 1
    rfl rfl rfl rfl rfl
    (fun k hk => by
      have hk0 : k = 0 := by omega
      subst hk0; rfl)
    rfl (by decide)
    (by intro v hv
        simp only [List.take, List.mem_cons, List.not_mem_nil, or_false] at hv
        subst hv; rfl)

/-- Claim C10: every feature written to the sink carries exactly 18
attribute values, one per entry of the fixed `field_definitions`
sequence and in that fixed order, regardless of which fields the
upstream record contains or omits. -/
theorem C10_schema_width (pf : String → Option ℚ) (isoParse : String → Option Nat)
    (fmt : Int → String) (tr : Point → Point) (inp : AlgInput) (f : Feature)
    (hf : f ∈ (processAlgorithm pf isoParse fmt tr inp).features) :
    f.attrs.length = field_definitions.length ∧ field_definitions.length = 18 ∧
    ∃ item, mapAttributes isoParse item = .ok f.attrs ∧
      ∀ (n : Nat) (h1 : n < field_definitions.length) (h2 : n < f.attrs.length),
        mapAttr isoParse item (field_definitions.get ⟨n, h1⟩) =
          .ok (f.attrs.get ⟨n, h2⟩) := by
  have hmem : ∃ item, mapAttributes isoParse item = .ok f.attrs := by
    cases hbp : buildParams fmt inp with
    | error e => simp [processAlgorithm, hbp] at hf
    | ok pi =>
      obtain ⟨pp, ii⟩ := pi
      cases hfd : fetchData inp.reply with
      | error e => simp [processAlgorithm, hbp, hfd] at hf
      | ok data =>
        cases data with
        | null => simp [processAlgorithm, hbp, hfd] at hf
        | bool b => simp [processAlgorithm, hbp, hfd] at hf
        | num q => simp [processAlgorithm, hbp, hfd] at hf
        | str s => simp [processAlgorithm, hbp, hfd] at hf
        | obj kvs => simp [processAlgorithm, hbp, hfd] at hf
        | arr l =>
          cases l with
          | nil => simp [processAlgorithm, hbp, hfd] at hf
          | cons d0 ds =>
            cases hs : inp.sinkOk with
            | false => simp [processAlgorithm, hbp, hfd, hs] at hf
            | true =>
              cases herr : (runLoop pf isoParse tr inp.canc (ds.length + 1) 0
                  (d0 :: ds)).err with
              | some e =>
                simp only [processAlgorithm, hbp, hfd, hs, List.length_cons,
                  herr] at hf
                exact runLoop_features_mapped pf isoParse tr inp.canc
                  (ds.length + 1) (d0 :: ds) 0 f hf
              | none =>
                simp only [processAlgorithm, hbp, hfd, hs, List.length_cons,
                  herr] at hf
                exact runLoop_features_mapped pf isoParse tr inp.canc
                  (ds.length + 1) (d0 :: ds) 0 f hf
  obtain ⟨item, hitem⟩ := hmem
  exact ⟨mapAttrList_length isoParse item field_definitions f.attrs hitem, rfl,
    item, hitem, mapAttrList_get isoParse item field_definitions f.attrs hitem⟩



theorem C10_schema_width_witness :
    c10feat.attrs.length = field_definitions.length ∧
    field_definitions.length = 18 ∧
    ∃ item, mapAttributes (fun _ => none) item = .ok c10feat.attrs ∧
      ∀ (n : Nat) (h1 : n < field_definitions.length) (h2 : n < c10feat.attrs.length),
        mapAttr (fun _ => none) item (field_definitions.get ⟨n, h1⟩) =
          .ok (c10feat.attrs.get ⟨n, h2⟩) :=
  C10_schema_width floatOfString (fun _ => none) (fun _ => "") id c10inp c10feat
    (by have h : (processAlgorithm floatOfString (fun _ => none) (fun _ => "") id
          c10inp).features = [c10feat] := rfl
        rw [h]
        exact List.mem_singleton.mpr rfl)

end StrideLocations

namespace StrideLocations


/-- Claim C7, counterexample: in the record mapping
`recorded_at_time` to the number `5`, the value for the schema field
`id` is absent — so the premise of the claim holds for that field — yet
mapping the record raises `TypeError`: line 235 applies
`QDateTime.fromString` to the non-string value found for the
timestamp field `recorded_at`, so an exception does propagate from
mapping the record. -/
theorem C7_counterexample :
    pyGet c7item (originalKey "id") = none ∧
    ("id", FieldType.longlong) ∈ field_definitions ∧
    mapAttributes (fun _ => none) c7item = .error .typeErr :=
  ⟨rfl, by decide, rfl⟩

/-- Claim C7 (amended): for every record and every schema field whose
upstream value (under the KeyMap-renamed key) is absent or null, the
corresponding output attribute is the typed null and mapping that field
raises nothing; moreover mapping the whole record raises no exception
provided every value that IS present for a timestamp-typed field is a
string. -/
theorem C7_null_gives_typed_null (isoParse : String → Option Nat) (item : Dict) :
    (∀ fd ∈ field_definitions, pyGet item (originalKey fd.1) = none →
      mapAttr isoParse item fd = .ok .nullVariant) ∧
    ((∀ fd ∈ field_definitions, fd.2 = .dateTime →
        ∀ v, pyGet item (originalKey fd.1) = some v → ∃ s, v = .str s) →
      ∃ attrs, mapAttributes isoParse item = .ok attrs) := by
  constructor
  · intro fd _ hnone
    simp [mapAttr, hnone]
  · intro hguard
    exact mapAttrList_ok_of_slots isoParse item field_definitions
      (fun fd hfd => mapAttr_ok_of_guard isoParse item fd
        (fun hdt v hv => hguard fd hfd hdt v hv))

theorem C7_null_gives_typed_null_witness :
    mapAttr (fun _ => none) [] ("id", FieldType.longlong) = .ok .nullVariant ∧
    ∃ attrs, mapAttributes (fun _ => none) [] = .ok attrs :=
  ⟨(C7_null_gives_typed_null (fun _ => none) []).1 ("id", FieldType.longlong)
      (by decide) rfl,
   (C7_null_gives_typed_null (fun _ => none) []).2
      (by intro fd _ _ v hv
          simp [pyGet, dictGet, List.find?] at hv)⟩

/-- Claim C8: for every record whose value for a timestamp-typed schema
field is a present string that the ISO-8601 parser rejects, mapping
still produces a (`QDateTime`-invalid) timestamp attribute for that slot
rather than aborting the record, and — provided every other present
timestamp value is a string too — mapping the whole record succeeds, so
the fetch does not fail on it. -/
theorem C8_unparsable_timestamp (isoParse : String → Option Nat) (item : Dict)
    (fd : String × FieldType) (s : String)
    (hfd : fd.2 = .dateTime)
    (hv : pyGet item (originalKey fd.1) = some (.str s))
    (hbad : isoParse s = none)
    (hguard : ∀ fd2 ∈ field_definitions, fd2.2 = .dateTime →
      ∀ v, pyGet item (originalKey fd2.1) = some v → ∃ t, v = .str t) :
    mapAttr isoParse item fd = .ok (.dateTime none) ∧
    ∃ attrs, mapAttributes isoParse item = .ok attrs := by
  constructor
  · simp [mapAttr, hv, hfd, hbad]
  · exact mapAttrList_ok_of_slots isoParse item field_definitions
      (fun fd2 h2 => mapAttr_ok_of_guard isoParse item fd2
        (fun hdt v hv2 => hguard fd2 h2 hdt v hv2))


theorem C8_unparsable_timestamp_witness :
    mapAttr (fun _ => none) c8item ("recorded_at", FieldType.dateTime)
      = .ok (.dateTime none) ∧
    ∃ attrs, mapAttributes (fun _ => none) c8item = .ok attrs :=
  C8_unparsable_timestamp (fun _ => none) c8item ("recorded_at", FieldType.dateTime)
    "not a date" rfl rfl rfl
    (by intro fd2 hmem hdt v hv
        simp only [field_definitions, List.mem_cons, List.not_mem_nil,
          or_false] at hmem
        rcases hmem with h|h|h|h|h|h|h|h|h|h|h|h|h|h|h|h|h|h <;> subst h <;>
          simp_all [originalKey, key_map, pyGet, dictGet, List.find?, c8item] <;>
          exact ⟨_, hv.symm⟩)

end StrideLocations
